import Mathlib

set_option maxRecDepth 8000

/-!
Verification of the change-tracking and media-relay pipeline of the
MBREDOIL/tr4 repository (sources: d5.py, d5c.py, D5dl.py, b.py).

The Python sources are shallowly embedded as pure Lean functions.
Conventions used throughout:

* External cryptographic digests (hashlib.sha256 / hashlib.md5 hexdigest)
  are modelled as injective deterministic string functions; the claims
  depend only on determinism and on distinct inputs giving distinct
  digests, never on the actual digest values.
* External I/O (the HTTP fetch, the MongoDB store, the Telegram
  transport, the downloader chain) is supplied as explicit data in an
  environment record; the cycle functions return a result record that
  records every observable action (stat records written, messages sent,
  resources attempted/delivered, archive writes) so that the theorems
  can speak about them.
* The checks follow the defensive variant (d5c.py) of the duplicated
  check_updates / send_media functions, which the specification
  designates as authoritative; get_webpage_content and generate_diff
  exist only in d5.py and are embedded from there.
-/

namespace D5

/-- Python s.startswith(p), on the character data. -/
def startsWithStr (s pre : String) : Bool := s.data.take pre.data.length = pre.data

/-- Python s.endswith(p), on the character data. -/
def endsWithStr (s suffix : String) : Bool :=
  s.data.reverse.take suffix.data.length = suffix.data.reverse

/-- Python s.lower(), on the character data. -/
def lowerStr (s : String) : String := String.mk (s.data.map Char.toLower)

/-- The whitespace set stripped by Python str.strip(). -/
def isPySpace (c : Char) : Bool := c = ' ' ∨ c = '\t' ∨ c = '\n' ∨ c = '\r'

/-- Python s.strip(), on the character data. -/
def stripStr (s : String) : String :=
  String.mk (((s.data.dropWhile isPySpace).reverse.dropWhile isPySpace).reverse)

/-- Model of hashlib.sha256(s.encode()).hexdigest() (d5c.py line 81):
an injective deterministic stand-in; no claim relies on digest values. -/
def sha256Hex (s : String) : String := "sha256#" ++ s

/-- Model of hashlib.md5(s.encode()).hexdigest() (d5.py line 210):
an injective deterministic stand-in. -/
def md5Hex (s : String) : String := "md5#" ++ s

/-- Model of urllib.parse.urljoin (d5.py lines 202 and 204, b.py line 101):
an already-absolute link is kept, a relative one is resolved against the
base.  The claims depend only on this being a deterministic function. -/
def urljoin (base rel : String) : String :=
  if startsWithStr rel "http://" || startsWithStr rel "https://" then rel else base ++ rel

/-- Model of urllib.parse.unquote (d5.py lines 202 and 204): percent-decoding
is an external character-table transformation; the claims depend only on it
being deterministic, so it is modelled as the identity. -/
def unquote (s : String) : String := s

/-- Model of requests.utils.requote_uri (b.py line 100): deterministic
re-encoding, modelled as the identity for the same reason as unquote. -/
def requote_uri (s : String) : String := s

/-- The final path segment of a URL or path (everything after the last
slash), as used by os.path.basename (b.py line 107, d5c.py line 142). -/
def basename (s : String) : String :=
  String.mk ((s.data.reverse.takeWhile (fun c => c ≠ '/')).reverse)

/-- The extension part of os.path.splitext (d5.py line 207, D5dl.py line 219):
the suffix of the basename starting at its last dot, or "" when the
basename has no dot. -/
def extOf (s : String) : String :=
  let base := (basename s).data
  let tail := base.reverse.takeWhile (fun c => c ≠ '.')
  if tail.length = base.length then "" else String.mk ('.' :: tail.reverse)

/-- The stem part of os.path.splitext (b.py line 108): the basename with
the extension removed. -/
def stem (s : String) : String :=
  let base := (basename s).data
  let tail := base.reverse.takeWhile (fun c => c ≠ '.')
  if tail.length = base.length then String.mk base
  else String.mk (base.take (base.length - tail.length - 1))

/-- The SUPPORTED_EXTENSIONS constant referenced by get_webpage_content
(d5.py line 208) is not defined under src/.  Modelled from the spec: the
category keys are the fixed classification used by the send-method
tables (d5c.py lines 158-163); the document category carries the spec's
document whitelist (pdf/doc/docx/xls/xlsx/ppt/pptx/txt, spec section
4.3) and the media categories follow the extension lists that appear in
the repository (D5dl.py lines 232-239). -/
def SUPPORTED_EXTENSIONS : List (String × List String) :=
  [("pdf", [".pdf", ".doc", ".docx", ".xls", ".xlsx", ".ppt", ".pptx", ".txt"]),
   ("image", [".jpg", ".jpeg", ".png", ".gif"]),
   ("audio", [".mp3", ".wav", ".ogg"]),
   ("video", [".mp4", ".mkv", ".avi", ".mov"])]

/-- First category of SUPPORTED_EXTENSIONS whose list contains the
extension (the inner for/break of d5.py lines 208-216). -/
def classify (ext : String) : Option String :=
  (SUPPORTED_EXTENSIONS.find? (fun p => p.2.contains ext)).map (fun p => p.1)

/-- A parsed markup tag as produced by the external HTML parser
(BeautifulSoup find_all over a/img/audio/video/source, d5.py line 199):
tag name plus the optional href and src attributes. -/
structure Tag where
  name : String
  href : Option String
  src : Option String
deriving DecidableEq, Repr

/-- A discovered resource candidate (d5.py lines 211-215). -/
structure Resource where
  url : String
  type : String
  hash : String
deriving DecidableEq, Repr

/-- The resource URL a tag contributes (d5.py lines 200-204): an anchor
with a non-empty href resolves the href, otherwise a non-empty src is
resolved; Python truthiness makes an empty attribute count as absent. -/
def tagUrl (pageUrl : String) (t : Tag) : Option String :=
  if t.name = "a" ∧ (t.href.getD "") ≠ "" then
    some (unquote (urljoin pageUrl (t.href.getD "")))
  else if (t.src.getD "") ≠ "" then
    some (unquote (urljoin pageUrl (t.src.getD "")))
  else none

/-- The resource-collection loop of get_webpage_content (d5.py lines
196-216).  Note that the source initialises a seen_hashes set (line 197)
but never consults it: no deduplication happens here. -/
def extractResources (pageUrl : String) (tags : List Tag) : List Resource :=
  tags.flatMap (fun t =>
    match tagUrl pageUrl t with
    | none => []
    | some u =>
      match classify (lowerStr (extOf u)) with
      | none => []
      | some ft => [⟨u, ft, md5Hex u⟩])

/-- Outcome of the underlying HTTP fetch plus HTML parse: the raw text and
the parsed tags on success, or a failure (network error, timeout, bad
status — anything the except clause of d5.py line 219 would catch). -/
inductive FetchOutcome where
  | ok (content : String) (tags : List Tag)
  | failure (msg : String)
deriving DecidableEq, Repr

/-- get_webpage_content (d5.py lines 190-221): on success returns the text
and the extracted resources; the except clause catches every error, logs
it, and returns ("", []) — it does not re-raise. -/
def get_webpage_content (url : String) (f : FetchOutcome) : String × List Resource :=
  match f with
  | .ok content tags => (content, extractResources url tags)
  | .failure _ => ("", [])

/-- The MAX_MESSAGE_LENGTH constant used by generate_diff (d5.py line 60)
is not defined under src/.  Modelled from the spec: the transport text
limit is 4096, the same constant safe_send_message uses (d5c.py line 180). -/
def MAX_MESSAGE_LENGTH : Nat := 4096

/-- Splitting character data at newline characters (Python splitlines as
used on the diff inputs; the exact boundary treatment of a trailing
newline is not relied on by any claim). -/
def splitLinesAux : List Char → List (List Char)
  | [] => [[]]
  | c :: rest =>
    match splitLinesAux rest with
    | [] => [[]]
    | l :: ls => if c = '\n' then [] :: l :: ls else (c :: l) :: ls

def splitLines (s : String) : List String := (splitLinesAux s.data).map String.mk

/-- generate_diff (d5.py lines 51-60).  difflib.unified_diff is an external
library; no claim relies on the diff text itself, so it is modelled as a
deterministic line-based old-versus-new listing under the unified-diff
headers.  The truncation to MAX_MESSAGE_LENGTH mirrors line 60. -/
def generate_diff (oldC newC : String) : String :=
  let body := (splitLines oldC).map (fun l => "-" ++ l) ++
              (splitLines newC).map (fun l => "+" ++ l)
  String.mk ((String.intercalate "\n" (["--- Previous", "+++ Current"] ++ body)).data.take
    MAX_MESSAGE_LENGTH)

/-- The chunking loop of safe_send_message (d5c.py lines 181-184) on the
character list: repeatedly peel off the first 4096 characters. -/
def chunkList (l : List Char) : List (List Char) :=
  if h : l = [] then []
  else l.take 4096 :: chunkList (l.drop 4096)
termination_by l.length
decreasing_by
  have hl : l.length ≠ 0 := fun h0 => h (List.eq_nil_of_length_eq_zero h0)
  simp only [List.length_drop]
  omega

/-- safe_send_message (d5c.py lines 178-184): the sequence of text chunks
handed to the transport for one outbound text. -/
def safe_send_message (text : String) : List String :=
  (chunkList text.data).map String.mk

/-- The mutable fields of a tracked-URL document in the urls collection
(the TrackedTarget of the spec), as read by check_updates (d5c.py lines
64-123).  The source reads the fields with .get and a default, which the
record models by always carrying a value ('' / [] when never written). -/
structure Tracked where
  name : String
  url : String
  night_mode : Bool
  content_hash : String
  content : String
  sent_hashes : List String
  last_checked : Nat
deriving DecidableEq, Repr

/-- Per-resource external outcomes seen by send_media (d5c.py lines
132-176): whether each downloader of the fallback chain succeeds, the
size of the downloaded file, and whether the transport send raises. -/
structure MediaEnv where
  ytdlOk : Bool
  directOk : Bool
  fileSize : Nat
  sendFails : Bool
deriving DecidableEq, Repr

/-- Observable outcome of one send_media call: its boolean result, whether
the transport send method was invoked, and whether a download happened. -/
structure SendOutcome where
  ok : Bool
  transportInvoked : Bool
  downloaded : Bool
deriving DecidableEq, Repr

/-- send_media (d5c.py lines 132-176): try the downloader chain
[ytdl_download, direct_download]; if none succeeds return False (the
for/else, lines 146-150); then the size guard (lines 152-155) returns
False before any transport call; otherwise the chosen send method is
invoked and an exception from it is caught, returning False (lines
165-176).  The caption formatting and send-method table do not affect
any claim and are not modelled. -/
def send_media (maxFileSize : Nat) (m : MediaEnv) : SendOutcome :=
  if ¬ (m.ytdlOk ∨ m.directOk) then ⟨false, false, false⟩
  else if m.fileSize > maxFileSize then ⟨false, false, true⟩
  else if m.sendFails then ⟨false, true, true⟩
  else ⟨true, true, true⟩

/-- One track_statistics record: the event kind and the success flag. -/
abbrev StatEvent := String × Bool

/-- Accumulated observations of the per-resource loop of check_updates
(d5c.py lines 102-109). -/
structure LoopOut where
  sent : List String
  stats : List StatEvent
  attempted : List Resource
  delivered : List Resource
deriving DecidableEq, Repr

/-- The per-resource loop of check_updates (d5c.py lines 102-109): a
resource whose fingerprint is already in the stored sent_hashes is
skipped without any download attempt; otherwise send_media is attempted,
a success appends the fingerprint to the local sent list and records a
successful download, a failure records a failed download. -/
def sendLoop (maxFileSize : Nat) (media : Resource → MediaEnv)
    (stored : List String) : List Resource → LoopOut
  | [] => ⟨[], [], [], []⟩
  | r :: rs =>
    let rest := sendLoop maxFileSize media stored rs
    if r.hash ∈ stored then rest
    else if (send_media maxFileSize (media r)).ok then
      ⟨r.hash :: rest.sent, ("downloads", true) :: rest.stats,
       r :: rest.attempted, r :: rest.delivered⟩
    else
      ⟨rest.sent, ("downloads", false) :: rest.stats,
       r :: rest.attempted, rest.delivered⟩

/-- The environment of one check cycle: the current local hour in the
configured timezone (d5c.py lines 70-72), the wall-clock stamp used for
last_checked, the fetch outcome, the per-user filter predicate
(apply_filters is not defined under src/ — modelled from the spec as a
pluggable accept/reject predicate over the resource), the per-resource
media outcomes, and the MAX_FILE_SIZE configuration constant (also not
defined under src/; the spec lists it as a configuration option). -/
structure Env where
  hour : Nat
  now : Nat
  fetch : FetchOutcome
  accept : Resource → Bool
  media : Resource → MediaEnv
  maxFileSize : Nat

/-- Everything one check cycle does that the outside can observe: the
updated tracked document, the statistics records in call order, the text
messages handed to the transport, the archive writes, the resources for
which send_media was invoked, the resources successfully delivered, and
whether the page was fetched at all. -/
structure CycleResult where
  tracked : Tracked
  stats : List StatEvent
  messages : List String
  archived : List String
  attempted : List Resource
  delivered : List Resource
  fetched : Bool
deriving DecidableEq, Repr

/-- The error notification the except branch of check_updates sends
(d5c.py line 130): f"⚠️ Error checking {url}: {str(e)}".  The exception
text produced by the store driver is immaterial to every claim and
modelled as a fixed string. -/
def update_error_message (url : String) : String :=
  "⚠️ Error checking " ++ url ++ ": dollar-prefixed field $push is not valid inside $set"

/-- check_updates, defensive variant (d5c.py lines 61-130).

* Night mode (lines 69-75): when night_mode is set and the local hour is
  outside [9, 22), the cycle stops before any fetch and records a failed
  check (track_statistics('checks', ..., success=False), line 74).
* Fetch and archive (lines 77-78): get_webpage_content never raises (it
  returns ("", []) on failure); the content is archived.
* Change detection (lines 80-95): the sha256 fingerprint of the fetched
  text is compared to the stored content_hash; on a difference, the
  stored content snapshot selects between a diff message and the initial
  snapshot message, and a content_changes success is recorded.
* Resource loop (lines 97-109): filtered resources go through sendLoop.
* Persistence (lines 111-123): only when a change was detected or some
  resource was delivered, the change message (if any) is sent FIRST
  (lines 112-113) and only then is the document update attempted.  The
  update document is malformed: update_data nests the '$push' operator
  INSIDE the '$set' operator (lines 115-122), and the store rejects a
  dollar-prefixed field path inside $set, so update_one RAISES whenever
  it runs.  Nothing is ever persisted — neither content_hash nor
  last_checked nor the sent fingerprints — and control jumps to the
  except branch (lines 127-130), which records a FAILED check and sends
  an error notification; the success record of line 125 is skipped.
* When no change was detected and nothing was delivered, the update
  block does not run and line 125 records a successful check. -/
def check_updates (env : Env) (t : Tracked) : CycleResult :=
  if t.night_mode ∧ ¬ (9 ≤ env.hour ∧ env.hour < 22) then
    { tracked := t, stats := [("checks", false)], messages := [],
      archived := [], attempted := [], delivered := [], fetched := false }
  else
    let fetched := get_webpage_content t.url env.fetch
    let current_content := fetched.1
    let previous_hash := t.content_hash
    let current_hash := sha256Hex current_content
    let text_changes :=
      if current_hash = previous_hash then ""
      else if t.content = "" then "🔍 Initial Content Saved: " ++ t.url
      else "🔄 Content Updated: " ++ t.url ++ "\n" ++ generate_diff t.content current_content
    let changeStats : List StatEvent :=
      if current_hash = previous_hash then [] else [("content_changes", true)]
    let filtered := fetched.2.filter env.accept
    let lo := sendLoop env.maxFileSize env.media t.sent_hashes filtered
    let doUpdate := ¬ (current_hash = previous_hash) ∨ lo.sent ≠ []
    if doUpdate then
      { tracked := t
        stats := changeStats ++ lo.stats ++ [("checks", false)]
        messages := (if text_changes ≠ "" then safe_send_message text_changes else []) ++
          [update_error_message t.url]
        archived := [current_content]
        attempted := lo.attempted
        delivered := lo.delivered
        fetched := true }
    else
      { tracked := t
        stats := changeStats ++ lo.stats ++ [("checks", true)]
        messages := []
        archived := [current_content]
        attempted := lo.attempted
        delivered := lo.delivered
        fetched := true }

/-- The closed set of valid event kinds (d5c.py line 14). -/
def valid_events : List String := ["downloads", "checks", "content_changes"]

/-- track_statistics, defensive variant (d5c.py lines 11-23): an unknown
event kind raises ValueError before any store access; a valid kind
performs one atomic upsert-increment of the success or failure counter
for that kind.  The stats document is modelled as its counter table:
a total function from (event kind, success flag) to the counter value,
absent counters reading 0 — Mongo's $inc with upsert semantics. -/
def track_statistics (event_type : String) (success : Bool)
    (doc : String × Bool → Nat) : Except String (String × Bool → Nat) :=
  if event_type ∈ valid_events then
    .ok (fun kb => if kb = (event_type, success) then doc kb + 1 else doc kb)
  else
    .error ("Invalid event type: " ++ event_type)

/-- One stats document of the stats collection, for a (user, url) pair,
with the nested counters read by the aggregation pipeline (d5c.py lines
27-56).  A counter path exists in the document only once
track_statistics has $inc'ed it: a counter that was never incremented
is ABSENT (none), not 0 — the pipeline's operators distinguish the two. -/
structure StatDoc where
  user_id : Nat
  checks_success : Option Nat
  checks_failure : Option Nat
  downloads_success : Option Nat
  downloads_failure : Option Nat
deriving DecidableEq, Repr

/-- Mongo's $add aggregation operator over possibly-missing fields
(d5c.py lines 33-38): if any operand is missing (reads as null) the
whole $add evaluates to null. -/
def addOpt : Option Nat → Option Nat → Option Nat
  | some a, some b => some (a + b)
  | _, _ => none

/-- Mongo's $sum group accumulator: missing and null contributions are
skipped, only numeric values are added. -/
def sumOpt (l : List (Option Nat)) : Nat := (l.filterMap id).sum

/-- The output row of the get_statistics pipeline (d5c.py lines 44-55). -/
structure Summary where
  total_tracked : Nat
  success_downloads : Nat
  failed_downloads : Nat
  uptime_percentage : ℚ
deriving DecidableEq, Repr

/-- get_statistics, defensive variant (d5c.py lines 25-59): match the
user's stats documents, accumulate the counters across them with $sum
(total_checks summing the per-document $add of the two check counters,
so a document missing either check counter contributes NOTHING to
total_checks), and compute uptime_percentage as 0 when total_checks is
0 and otherwise as success_checks / total_checks ($cond/$divide, lines
48-54).  An empty match produces no group row and the source returns an
empty dict, modelled as none. -/
def get_statistics (uid : Nat) (docs : List StatDoc) : Option Summary :=
  let m := docs.filter (fun d => d.user_id = uid)
  if m.isEmpty then none
  else
    let total_checks : Nat := sumOpt (m.map (fun d => addOpt d.checks_success d.checks_failure))
    let success_checks : Nat := sumOpt (m.map (fun d => d.checks_success))
    some { total_tracked := m.length
           success_downloads := sumOpt (m.map (fun d => d.downloads_success))
           failed_downloads := sumOpt (m.map (fun d => d.downloads_failure))
           uptime_percentage :=
             if total_checks = 0 then 0
             else (success_checks : ℚ) / (total_checks : ℚ) }

end D5

namespace D5dl

/-- The 100 MiB read-buffer bound of the inner loop of split_file
(D5dl.py line 90). -/
def READ_BUF : Nat := 100 * 1024 * 1024

/-- The default chunk size of split_file (D5dl.py line 79). -/
def CHUNK_DEFAULT : Nat := 2000 * 1024 * 1024

/-- The inner while loop of split_file (D5dl.py lines 88-94) writing one
part: repeatedly read min(remaining, 100 MiB) bytes from the source and
append them to the part until the budget is exhausted or the source is
empty.  Returns (part contents, rest of the source, remaining budget). -/
def readChunks (remaining : Nat) (data : List Nat) : List Nat × List Nat × Nat :=
  if h0 : remaining = 0 then ([], data, 0)
  else if hd : data = [] then ([], [], remaining)
  else
    let n := min remaining READ_BUF
    let chunkRead := data.take n
    let rest := readChunks (remaining - chunkRead.length) (data.drop n)
    (chunkRead ++ rest.1, rest.2.1, rest.2.2)
termination_by data.length
decreasing_by
  have h1 : 1 ≤ min remaining READ_BUF := by
    have : READ_BUF ≠ 0 := by decide
    omega
  have hl : data.length ≠ 0 := fun hz => hd (List.eq_nil_of_length_eq_zero hz)
  simp only [List.length_drop]
  omega

/-- The inner read loop transfers exactly min(budget, available) bytes:
the part is the budget-sized left slice of the source and the leftover
budget is what the source could not fill. -/
theorem readChunks_eq (remaining : Nat) (data : List Nat) :
    readChunks remaining data =
      (data.take remaining, data.drop remaining, remaining - min remaining data.length) := by
  rw [readChunks.eq_def]
  by_cases h0 : remaining = 0
  · simp [h0]
  · by_cases hd : data = []
    · simp [h0, hd]
    · simp only [h0, hd, dif_neg, not_false_iff]
      rw [readChunks_eq (remaining - (data.take (min remaining READ_BUF)).length)
            (data.drop (min remaining READ_BUF))]
      have hbuf : READ_BUF ≠ 0 := by decide
      have hl : data.length ≠ 0 := fun hz => hd (List.eq_nil_of_length_eq_zero hz)
      simp only [List.length_take, List.length_drop, Prod.mk.injEq]
      refine ⟨?_, ?_, ?_⟩
      · rw [← List.take_add, List.take_eq_take]
        omega
      · rw [List.drop_drop]
        by_cases hle : min remaining READ_BUF ≤ data.length
        · congr 1
          omega
        · rw [List.drop_eq_nil_of_le (by simp; omega), List.drop_eq_nil_of_le (by omega)]
      · omega
termination_by data.length
decreasing_by
  have h1 : 1 ≤ min remaining READ_BUF := by
    have : READ_BUF ≠ 0 := by decide
    omega
  have hl : data.length ≠ 0 := fun hz => hd (List.eq_nil_of_length_eq_zero hz)
  simp only [List.length_drop]
  omega

/-- split_file (D5dl.py lines 79-106) on the byte content of the input
file.  Each outer iteration writes one part via the inner loop; a part
that ends up empty is deleted and the loop stops (lines 96-98); a part
written with budget left over (source exhausted) is kept and the loop
stops (lines 103-104); otherwise the loop continues on the rest. -/
def split_file (chunkSize : Nat) (data : List Nat) : List (List Nat) :=
  if h : (readChunks chunkSize data).1 = [] then []
  else if 0 < (readChunks chunkSize data).2.2 then [(readChunks chunkSize data).1]
  else (readChunks chunkSize data).1 :: split_file chunkSize (readChunks chunkSize data).2.1
termination_by data.length
decreasing_by
  rw [readChunks_eq] at h ⊢
  simp only [List.length_drop]
  have hd : data ≠ [] := by
    intro hd; apply h; simp [hd]
  have hc : chunkSize ≠ 0 := by
    intro hc; apply h; simp [hc]
  have : data.length ≠ 0 := fun h0 => hd (List.eq_nil_of_length_eq_zero h0)
  omega

/-- The part-file name f"{file_path}.part{part_num:03d}" (D5dl.py line 86).
pad3 is the zero padding of the 03d format. -/
def pad3 (n : Nat) : String :=
  if n < 10 then "00" ++ toString n
  else if n < 100 then "0" ++ toString n
  else toString n

def partName (filePath : String) (i : Nat) : String :=
  filePath ++ ".part" ++ pad3 i

/-- The part paths split_file produces, in production order: part numbers
count up from 0 (D5dl.py lines 82, 86, 101). -/
def partNames (filePath : String) (count : Nat) : List String :=
  (List.range count).map (partName filePath)

/-- One observable filesystem/transport action of the upload phase of
ytdl_handler (D5dl.py lines 201-259). -/
inductive UpEvent where
  | attempt (path : String)
  | removedPart (path : String)
  | removedOriginal
deriving DecidableEq, Repr

/-- The part-sending loop of ytdl_handler (D5dl.py lines 205-214) followed
by the removal of the original file (line 214): each part is handed to
client.send_document and, when that returns, removed; an exception from
the send jumps to the handler's except clause (line 261), so nothing
after the failing send runs — in particular the failing part and all
later parts are not removed, and neither is the original file. -/
def sendParts (sendOk : String → Bool) : List String → List UpEvent
  | [] => [.removedOriginal]
  | p :: ps =>
    if sendOk p then .attempt p :: .removedPart p :: sendParts sendOk ps
    else [.attempt p]

/-- The send phase of ytdl_handler (D5dl.py lines 201-259) after a
successful download: os.path.getsize decides between the large-file path
(split into parts with the default chunk size, send each part, remove the
original) and the single-send path (send the whole file, then remove it;
an exception from the send skips the removal). -/
def ytdl_send_flow (sendOk : String → Bool) (filePath : String)
    (fileSize : Nat) (data : List Nat) : List UpEvent :=
  if fileSize > 2 * 1024 ^ 3 then
    sendParts sendOk (partNames filePath (split_file CHUNK_DEFAULT data).length)
  else if sendOk filePath then [.attempt filePath, .removedOriginal]
  else [.attempt filePath]

/-- Concatenating the parts in production order restores the file. -/
theorem split_file_join (chunkSize : Nat) (data : List Nat) (hc : 0 < chunkSize) :
    (split_file chunkSize data).flatten = data := by
  rw [split_file.eq_def]
  simp only [readChunks_eq]
  by_cases h : data.take chunkSize = []
  · rw [dif_pos h]
    rw [List.take_eq_nil_iff] at h
    rcases h with h | h
    · omega
    · simp [h]
  · rw [dif_neg h]
    by_cases hr : 0 < chunkSize - min chunkSize data.length
    · rw [if_pos hr]
      have hlen : data.length ≤ chunkSize := by omega
      simp [List.take_of_length_le hlen]
    · rw [if_neg hr]
      rw [List.flatten_cons, split_file_join chunkSize (data.drop chunkSize) hc]
      exact List.take_append_drop _ _
termination_by data.length
decreasing_by
  have hd : data ≠ [] := by
    intro hd; apply h; simp [hd]
  have hc0 : chunkSize ≠ 0 := by
    intro hz; apply h; simp [hz]
  have hl : data.length ≠ 0 := fun hz => hd (List.eq_nil_of_length_eq_zero hz)
  simp only [List.length_drop]
  omega

/-- No produced part is empty. -/
theorem split_file_parts_nonempty (chunkSize : Nat) (data : List Nat) :
    ∀ p ∈ split_file chunkSize data, p ≠ [] := by
  intro p hp
  rw [split_file.eq_def] at hp
  simp only [readChunks_eq] at hp
  by_cases h : data.take chunkSize = []
  · rw [dif_pos h] at hp
    simp at hp
  · rw [dif_neg h] at hp
    by_cases hr : 0 < chunkSize - min chunkSize data.length
    · rw [if_pos hr] at hp
      simp only [List.mem_singleton] at hp
      exact hp ▸ h
    · rw [if_neg hr] at hp
      rcases List.mem_cons.mp hp with h1 | h1
      · exact h1 ▸ h
      · exact split_file_parts_nonempty chunkSize (data.drop chunkSize) p h1
termination_by data.length
decreasing_by
  have hd : data ≠ [] := by
    intro hd; apply h; simp [hd]
  have hc0 : chunkSize ≠ 0 := by
    intro hz; apply h; simp [hz]
  have hl : data.length ≠ 0 := fun hz => hd (List.eq_nil_of_length_eq_zero hz)
  simp only [List.length_drop]
  omega

/-- Every part except possibly the last has exactly the chunk size. -/
theorem split_file_fixed_sizes (chunkSize : Nat) (data : List Nat) :
    ∀ p ∈ (split_file chunkSize data).dropLast, p.length = chunkSize := by
  intro p hp
  rw [split_file.eq_def] at hp
  simp only [readChunks_eq] at hp
  by_cases h : data.take chunkSize = []
  · rw [dif_pos h] at hp
    simp at hp
  · rw [dif_neg h] at hp
    by_cases hr : 0 < chunkSize - min chunkSize data.length
    · rw [if_pos hr] at hp
      simp at hp
    · rw [if_neg hr] at hp
      have hfull : (data.take chunkSize).length = chunkSize := by
        simp only [List.length_take]
        omega
      rcases hrest : split_file chunkSize (data.drop chunkSize) with _ | ⟨b, l⟩
      · rw [hrest] at hp
        simp at hp
      · rw [hrest, List.dropLast_cons₂] at hp
        rcases List.mem_cons.mp hp with h1 | h1
        · rw [h1]; exact hfull
        · rw [← hrest] at h1
          exact split_file_fixed_sizes chunkSize (data.drop chunkSize) p h1
termination_by data.length
decreasing_by
  have hd : data ≠ [] := by
    intro hd; apply h; simp [hd]
  have hc0 : chunkSize ≠ 0 := by
    intro hz; apply h; simp [hz]
  have hl : data.length ≠ 0 := fun hz => hd (List.eq_nil_of_length_eq_zero hz)
  simp only [List.length_drop]
  omega

/-- When every part send succeeds, the upload loop alternates a send and
an immediate removal for each part in list order and ends by removing the
original file. -/
theorem sendParts_all_ok (sendOk : String → Bool) (ps : List String)
    (h : ∀ p ∈ ps, sendOk p = true) :
    sendParts sendOk ps =
      ps.flatMap (fun p => [UpEvent.attempt p, UpEvent.removedPart p]) ++
        [UpEvent.removedOriginal] := by
  induction ps with
  | nil => rfl
  | cons p ps ih =>
    have hp : sendOk p = true := h p (List.mem_cons_self p ps)
    simp only [sendParts, hp, if_pos, List.flatMap_cons]
    rw [ih (fun q hq => h q (List.mem_cons_of_mem p hq))]
    simp

end D5dl

namespace B

/-- One extracted document entry (b.py lines 109-112). -/
structure DocEntry where
  name : String
  url : String
deriving DecidableEq, Repr

/-- The extension whitelist of extract_documents (b.py line 94). -/
def document_extensions : List String :=
  [".pdf", ".doc", ".docx", ".xls", ".xlsx", ".ppt", ".pptx", ".txt"]

/-- The per-link body of extract_documents (b.py lines 97-112): resolve
the href against the base URL, keep the link only when the lowercased
absolute URL ends in a whitelisted extension, and name it by the trimmed
link text, falling back to the filename stem. -/
def mkDoc (baseUrl : String) (link : String × String) : Option DocEntry :=
  let absolute := D5.urljoin baseUrl (D5.requote_uri link.1)
  let text := D5.stripStr link.2
  if document_extensions.any (fun ext => D5.endsWithStr (D5.lowerStr absolute) ext) then
    some { name := if text = "" then D5.stem (D5.basename absolute) else text,
           url := absolute }
  else none

/-- One step of building the url-keyed dict of b.py line 115: Python dict
insertion keeps the position of the first occurrence of a key and
overwrites its value, so a present key is replaced in place and a new
key is appended. -/
def upsertDoc : List DocEntry → DocEntry → List DocEntry
  | [], d => [d]
  | x :: xs, d => if x.url = d.url then d :: xs else x :: upsertDoc xs d

/-- The dict-comprehension deduplication of b.py line 115:
list( dict keyed by url, last occurrence wins .values() ). -/
def dedup_documents (docs : List DocEntry) : List DocEntry :=
  docs.foldl upsertDoc []

/-- extract_documents (b.py lines 91-115) over the anchor links the
external parser found (href attribute, link text). -/
def extract_documents (baseUrl : String) (links : List (String × String)) : List DocEntry :=
  dedup_documents (links.filterMap (mkDoc baseUrl))

end B


namespace D5

/-!  Concrete fixtures used by witnesses, counterexamples and the
code-evaluation theorems.  -/

/-- A freshly created tracked target: no fingerprint, no content
snapshot, nothing sent yet. -/
def t0 : Tracked := ⟨"n", "u", false, "", "", [], 0⟩

/-- Daytime environment fetching page text "A" with no resources. -/
def envA : Env :=
  { hour := 10, now := 1, fetch := .ok "A" [], accept := fun _ => true,
    media := fun _ => ⟨false, false, 0, false⟩, maxFileSize := 100 }

/-- Same environment on a later cycle where the page text changed to "B". -/
def envB : Env := { envA with fetch := .ok "B" [] }

/-- A target that has already seen content "page". -/
def t1 : Tracked := { t0 with content_hash := sha256Hex "page", content := "page", last_checked := 5 }

/-- Environment in which the page fetch fails. -/
def envFail : Env := { envA with fetch := .failure "timeout" }

/-- A target with night mode enabled. -/
def tNight : Tracked := { t0 with night_mode := true }

/-- Environment at 03:00 local time. -/
def envNight : Env := { envA with hour := 3 }

/-- An anchor tag linking one PDF. -/
def tagW : Tag := ⟨"a", some "doc.pdf", none⟩

/-- A target at the page URL the witness fetch resolves against. -/
def tW : Tracked := { t0 with url := "http://s/" }

/-- Witness environment: one PDF resource, downloads and sends succeed. -/
def envW : Env :=
  { hour := 12, now := 2, fetch := .ok "PAGE" [tagW], accept := fun _ => true,
    media := fun _ => ⟨true, false, 10, false⟩, maxFileSize := 100 }

/-- Oversize environment: the PDF downloads but is larger than the cap. -/
def envO : Env := { envW with media := fun _ => ⟨true, false, 500, false⟩ }

end D5

namespace D5

/-!  Structural lemmas about the per-resource loop.  -/

/-- A download/send is attempted exactly for the filtered resources whose
fingerprint is not in the stored sent_hashes, in list order. -/
theorem sendLoop_attempted (mf : Nat) (media : Resource → MediaEnv)
    (stored : List String) (rs : List Resource) :
    (sendLoop mf media stored rs).attempted =
      rs.filter (fun r => r.hash ∉ stored) := by
  induction rs with
  | nil => rfl
  | cons r rs ih =>
    simp only [sendLoop, List.filter_cons]
    by_cases h : r.hash ∈ stored
    · simp [h, ih]
    · by_cases hok : (send_media mf (media r)).ok
      · simp [h, hok, ih]
      · simp [h, hok, ih]

/-- A resource is delivered exactly when it is attempted and its
send_media call returns success. -/
theorem sendLoop_delivered (mf : Nat) (media : Resource → MediaEnv)
    (stored : List String) (rs : List Resource) :
    (sendLoop mf media stored rs).delivered =
      (rs.filter (fun r => r.hash ∉ stored)).filter
        (fun r => (send_media mf (media r)).ok) := by
  induction rs with
  | nil => rfl
  | cons r rs ih =>
    simp only [sendLoop, List.filter_cons]
    by_cases h : r.hash ∈ stored
    · simp [h, ih]
    · by_cases hok : (send_media mf (media r)).ok
      · simp [h, hok, ih]
      · simp [h, hok, ih]

/-- The fingerprints appended to sent_hashes are exactly the fingerprints
of the delivered resources. -/
theorem sendLoop_sent (mf : Nat) (media : Resource → MediaEnv)
    (stored : List String) (rs : List Resource) :
    (sendLoop mf media stored rs).sent =
      (sendLoop mf media stored rs).delivered.map Resource.hash := by
  induction rs with
  | nil => rfl
  | cons r rs ih =>
    simp only [sendLoop]
    by_cases h : r.hash ∈ stored
    · simp [h, ih]
    · by_cases hok : (send_media mf (media r)).ok
      · simp [h, hok, ih]
      · simp [h, hok, ih]

/-- Every attempted resource contributes one downloads stat record whose
flag is its send_media result. -/
theorem sendLoop_stats (mf : Nat) (media : Resource → MediaEnv)
    (stored : List String) (rs : List Resource) :
    (sendLoop mf media stored rs).stats =
      (sendLoop mf media stored rs).attempted.map
        (fun r => (("downloads" : String), (send_media mf (media r)).ok)) := by
  induction rs with
  | nil => rfl
  | cons r rs ih =>
    simp only [sendLoop]
    by_cases h : r.hash ∈ stored
    · simp [h, ih]
    · by_cases hok : (send_media mf (media r)).ok
      · simp [h, hok, ih]
      · simp [h, hok, ih]

/-!  Shape of an active (not night-suppressed) check cycle.  -/

/-- Field description of check_updates on an active cycle, in terms of
the per-resource loop over the filtered extracted resources.  Whether or
not the persistence step runs, the tracked document is unchanged — when
the update block runs, the malformed update raises before writing — and
every loop stat record is among the cycle's stat records. -/
theorem check_updates_active (env : Env) (t : Tracked)
    (hact : ¬ (t.night_mode ∧ ¬ (9 ≤ env.hour ∧ env.hour < 22))) :
    (check_updates env t).attempted =
      (sendLoop env.maxFileSize env.media t.sent_hashes
        ((get_webpage_content t.url env.fetch).2.filter env.accept)).attempted ∧
    (check_updates env t).delivered =
      (sendLoop env.maxFileSize env.media t.sent_hashes
        ((get_webpage_content t.url env.fetch).2.filter env.accept)).delivered ∧
    (check_updates env t).tracked = t ∧
    (check_updates env t).fetched = true ∧
    (∀ ev ∈ (sendLoop env.maxFileSize env.media t.sent_hashes
        ((get_webpage_content t.url env.fetch).2.filter env.accept)).stats,
      ev ∈ (check_updates env t).stats) := by
  unfold check_updates
  rw [if_neg hact]
  dsimp only
  by_cases hup : ¬ (sha256Hex (get_webpage_content t.url env.fetch).1 = t.content_hash) ∨
      (sendLoop env.maxFileSize env.media t.sent_hashes
        ((get_webpage_content t.url env.fetch).2.filter env.accept)).sent ≠ []
  · rw [if_pos hup]
    refine ⟨rfl, rfl, rfl, rfl, ?_⟩
    intro ev hev
    simp only [List.mem_append]
    exact Or.inl (Or.inr hev)
  · rw [if_neg hup]
    refine ⟨rfl, rfl, rfl, rfl, ?_⟩
    intro ev hev
    simp only [List.mem_append]
    exact Or.inl (Or.inr hev)

end D5

namespace D5

/-- C3 counterexample: with night_mode set, window 09:00-22:00 and local
time 03:00, the cycle performs no fetch but its only statistics record is
("checks", false) — a failed check, the very record the exception handler
writes (d5c.py lines 74 and 129).  There is no suppressed-check record
distinct from a failed check, so the claim that the cycle is "recorded as
a suppressed check, not as a failed check" is false on the code. -/
theorem night_cycle_is_recorded_failed :
    (check_updates envNight tNight).stats = [(("checks" : String), false)] ∧
    (check_updates envNight tNight).fetched = false := by
  exact ⟨rfl, rfl⟩

/-- C3 (amended): for every target with night_mode set, if the current
local hour is outside the 09:00-22:00 active window, the check cycle
performs no fetch, delivers nothing, sends nothing, leaves the target
unmodified, and records the suppressed cycle as a FAILED check (the
success=False checks counter) — the code has no separate suppressed-check
outcome (d5c.py lines 69-75). -/
theorem night_mode_skips_cycle (env : Env) (t : Tracked)
    (hn : t.night_mode = true) (hh : ¬ (9 ≤ env.hour ∧ env.hour < 22)) :
    check_updates env t =
      { tracked := t, stats := [("checks", false)], messages := [],
        archived := [], attempted := [], delivered := [], fetched := false } := by
  unfold check_updates
  rw [if_pos ⟨hn, hh⟩]

theorem night_mode_skips_cycle_witness :
    check_updates envNight tNight =
      { tracked := tNight, stats := [("checks", false)], messages := [],
        archived := [], attempted := [], delivered := [], fetched := false } :=
  night_mode_skips_cycle envNight tNight (by decide) (by decide)

/-- C7: track_statistics (d5c.py lines 11-23) rejects any event kind
outside the closed set {downloads, checks, content_changes} with a
validation error before touching any counter, and for a valid kind it
increments exactly the matching (kind, success-flag) counter by one,
leaving every other counter unchanged. -/
theorem track_statistics_validates (e : String) (b : Bool) (doc : String × Bool → Nat) :
    (e ∉ valid_events →
      track_statistics e b doc = .error ("Invalid event type: " ++ e)) ∧
    (e ∈ valid_events →
      track_statistics e b doc =
        .ok (fun kb => if kb = (e, b) then doc kb + 1 else doc kb) ∧
      ∀ doc2, track_statistics e b doc = .ok doc2 →
        doc2 (e, b) = doc (e, b) + 1 ∧ ∀ kb, kb ≠ (e, b) → doc2 kb = doc kb) := by
  constructor
  · intro h
    unfold track_statistics
    rw [if_neg h]
  · intro h
    have heq : track_statistics e b doc =
        .ok (fun kb => if kb = (e, b) then doc kb + 1 else doc kb) := by
      unfold track_statistics
      rw [if_pos h]
    refine ⟨heq, ?_⟩
    intro doc2 h2
    rw [heq] at h2
    injection h2 with h2
    subst h2
    constructor
    · simp
    · intro kb hkb
      simp [hkb]

theorem track_statistics_validates_witness :
    (track_statistics "bogus" true (fun _ => 0) =
      .error ("Invalid event type: " ++ "bogus")) ∧
    (track_statistics "checks" true (fun _ => 0) =
      .ok (fun kb => if kb = ("checks", true) then (fun _ : String × Bool => 0) kb + 1
                     else (fun _ : String × Bool => 0) kb)) :=
  ⟨(track_statistics_validates "bogus" true (fun _ => 0)).1 (by decide),
   ((track_statistics_validates "checks" true (fun _ => 0)).2 (by decide)).1⟩

end D5

namespace D5

/-- The single resource the witness environment discovers. -/
def rW : Resource := ⟨"http://s/doc.pdf", "pdf", md5Hex "http://s/doc.pdf"⟩

/-- C1 evaluation at the failing input: a fresh target whose page
carries one PDF resource, with download and send succeeding, checked
twice over the unchanged page.  Inside the cycle the guard of d5c.py
line 104 and the append-after-success of line 106 behave as claimed, but
the persistence step (d5c.py lines 115-123) passes update_one an update
document that nests the '$push' operator inside '$set'; the store
rejects the dollar-prefixed path, the update raises, and sent_hashes is
never persisted (the cycle even ends as a recorded FAILED check via the
except branch).  The second cycle therefore finds the fingerprint fresh
again and delivers the same resource a second time — two deliveries
across two consecutive cycles, not one. -/
theorem redelivery_on_second_cycle :
    (check_updates envW tW).delivered = [rW] ∧
    (check_updates envW tW).tracked = tW ∧
    ((("checks" : String), false) : StatEvent) ∈ (check_updates envW tW).stats ∧
    (check_updates envW (check_updates envW tW).tracked).delivered = [rW] ∧
    ((check_updates envW tW).delivered ++
      (check_updates envW (check_updates envW tW).tracked).delivered).count rW = 2 := by
  refine ⟨by decide, by decide, by decide, by decide, by decide⟩

/-- C6: when a filtered fresh resource downloads successfully but
exceeds the configured maximum file size, send_media returns failure
without ever invoking a transport send method (d5c.py lines 152-155),
the cycle records a failed download, the fingerprint is not appended to
sent_hashes, and the next cycle over the same resource list attempts the
resource again (d5c.py lines 102-109). -/
theorem oversized_never_sent (env : Env) (t : Tracked) (r : Resource)
    (hact : ¬ (t.night_mode ∧ ¬ (9 ≤ env.hour ∧ env.hour < 22)))
    (hnd : (((get_webpage_content t.url env.fetch).2.filter env.accept).map Resource.hash).Nodup)
    (hr : r ∈ (get_webpage_content t.url env.fetch).2.filter env.accept)
    (hfresh : r.hash ∉ t.sent_hashes)
    (hdl : (env.media r).ytdlOk ∨ (env.media r).directOk)
    (hsize : env.maxFileSize < (env.media r).fileSize) :
    (send_media env.maxFileSize (env.media r)).transportInvoked = false ∧
    (send_media env.maxFileSize (env.media r)).downloaded = true ∧
    r ∉ (check_updates env t).delivered ∧
    r.hash ∉ (check_updates env t).tracked.sent_hashes ∧
    ((("downloads" : String), false) : StatEvent) ∈ (check_updates env t).stats ∧
    r ∈ (check_updates env (check_updates env t).tracked).attempted := by
  have hsm : send_media env.maxFileSize (env.media r) = ⟨false, false, true⟩ := by
    unfold send_media
    rw [if_neg (not_not_intro hdl), if_pos hsize]
  have hok : (send_media env.maxFileSize (env.media r)).ok = false := by rw [hsm]
  obtain ⟨ha1, hd1, ht1, -, hstats⟩ := check_updates_active env t hact
  have hnotdel : r ∉ (check_updates env t).delivered := by
    rw [hd1, sendLoop_delivered]
    intro hmem
    have := (List.mem_filter.mp hmem).2
    rw [hok] at this
    exact Bool.false_ne_true this
  have hnotsent : r.hash ∉ (check_updates env t).tracked.sent_hashes := by
    rw [ht1]
    exact hfresh
  refine ⟨by rw [hsm], by rw [hsm], hnotdel, hnotsent, ?_, ?_⟩
  · apply hstats
    rw [sendLoop_stats]
    have hatt : r ∈ (sendLoop env.maxFileSize env.media t.sent_hashes
        ((get_webpage_content t.url env.fetch).2.filter env.accept)).attempted := by
      rw [sendLoop_attempted]
      exact List.mem_filter.mpr ⟨hr, decide_eq_true hfresh⟩
    have h2 : ((("downloads" : String), (send_media env.maxFileSize (env.media r)).ok)) ∈
        List.map (fun q => (("downloads" : String), (send_media env.maxFileSize (env.media q)).ok))
          (sendLoop env.maxFileSize env.media t.sent_hashes
            ((get_webpage_content t.url env.fetch).2.filter env.accept)).attempted :=
      List.mem_map_of_mem
        (fun q => (("downloads" : String), (send_media env.maxFileSize (env.media q)).ok)) hatt
    rw [hok] at h2
    exact h2
  · have hact2 : ¬ ((check_updates env t).tracked.night_mode ∧
        ¬ (9 ≤ env.hour ∧ env.hour < 22)) := by
      rw [ht1]; exact hact
    obtain ⟨ha2, -, -, -, -⟩ :=
      check_updates_active env (check_updates env t).tracked hact2
    rw [ha2, sendLoop_attempted, ht1]
    exact List.mem_filter.mpr ⟨hr, decide_eq_true hfresh⟩

theorem oversized_never_sent_witness :
    rW ∈ (check_updates envO (check_updates envO tW).tracked).attempted :=
  (oversized_never_sent envO tW rW (by decide) (by decide) (by decide) (by decide)
    (by decide) (by decide)).2.2.2.2.2

end D5

namespace D5

/-- C2 evaluation at the failing input: a fresh target is checked twice,
first seeing content "A", then content "B".  The second check detects a
change (fingerprints differ), yet its outbound text is again the
initial-snapshot report, not a diff: the persistence step of
check_updates (d5c.py lines 115-123) never includes the content
snapshot in update_data — and on top of that the malformed update
raises, so nothing at all is persisted (each cycle also sends the
except branch's error notification after the report).  Tracked content
stays empty forever and the diff branch (d5c.py line 88) is unreachable
via check cycles. -/
theorem second_change_reports_initial_snapshot :
    ((("content_changes" : String), true) : StatEvent) ∈
      (check_updates envB (check_updates envA t0).tracked).stats ∧
    (check_updates envB (check_updates envA t0).tracked).tracked.content = "" ∧
    (check_updates envA t0).messages =
      safe_send_message ("🔍 Initial Content Saved: " ++ t0.url) ++
        [update_error_message t0.url] ∧
    (check_updates envB (check_updates envA t0).tracked).messages =
      safe_send_message ("🔍 Initial Content Saved: " ++ t0.url) ++
        [update_error_message t0.url] :=
  ⟨by decide, by decide, rfl, rfl⟩

/-- C5 evaluation at the failing input: a target that has previously
seen content "page" goes through a cycle whose page fetch fails.
get_webpage_content swallows the failure into ("", []) (d5.py lines
219-221), so check_updates treats the empty text as real content: it
archives "", records a content_changes SUCCESS, and sends a
"Content Updated" change notification for the spurious change to empty
content.  The stored state then survives unmodified, and a failed check
is recorded, only by accident: the malformed update_one (d5c.py lines
115-123, '$push' nested inside '$set') raises into the except branch
before anything is written.  The claim's "no notification or delivery"
is false — a change notification and an error notification are sent —
and the cycle fabricates archive and change-statistics entries from a
failed fetch. -/
theorem fetch_failure_mutates_state :
    (check_updates envFail t1).tracked = t1 ∧
    ((("checks" : String), false) : StatEvent) ∈ (check_updates envFail t1).stats ∧
    ((("checks" : String), true) : StatEvent) ∉ (check_updates envFail t1).stats ∧
    ((("content_changes" : String), true) : StatEvent) ∈ (check_updates envFail t1).stats ∧
    (check_updates envFail t1).archived = [""] ∧
    (check_updates envFail t1).messages =
      safe_send_message
        ("🔄 Content Updated: " ++ t1.url ++ "\n" ++ generate_diff t1.content "") ++
        [update_error_message t1.url] ∧
    (check_updates envFail t1).messages ≠ [] := by
  refine ⟨by decide, by decide, by decide, by decide, by decide, rfl, ?_⟩
  have hmsg : (check_updates envFail t1).messages =
      safe_send_message
        ("🔄 Content Updated: " ++ t1.url ++ "\n" ++ generate_diff t1.content "") ++
        [update_error_message t1.url] := rfl
  rw [hmsg]
  simp

end D5

namespace D5

/-- C4 evaluation at the failing input: a user with one URL document
whose checks all succeeded — stats.checks.success was $inc'ed to 3 and
stats.checks.failure was NEVER created (track_statistics only ever
$inc's the one matching counter path).  In the aggregation pipeline,
$add over the missing failure counter evaluates to null and the $sum
accumulator skips it, so total_checks is 0, the $cond takes the
zero-checks branch, and uptime_percentage is reported as 0 — not the
claimed 1.0 for a user whose every recorded check succeeded, and not
the ratio of total successes over total checks (d5c.py lines 32-54). -/
theorem all_success_uptime_zero :
    get_statistics 1 [⟨1, some 3, none, some 2, some 1⟩] =
      some ⟨1, 2, 1, 0⟩ ∧
    sumOpt (([⟨1, some 3, none, some 2, some 1⟩] : List StatDoc).map
      (fun d => d.checks_success)) = 3 := by
  constructor
  · unfold get_statistics
    norm_num [sumOpt, addOpt]
    decide
  · decide

end D5

namespace B

/-- Every URL in an upsert result is the new entry's URL or was already
present. -/
theorem upsertDoc_urls_subset (acc : List DocEntry) (d : DocEntry) :
    ∀ u ∈ (upsertDoc acc d).map DocEntry.url, u = d.url ∨ u ∈ acc.map DocEntry.url := by
  induction acc with
  | nil =>
    intro u hu
    simp only [upsertDoc, List.map_cons, List.map_nil, List.mem_singleton] at hu
    exact Or.inl hu
  | cons x xs ih =>
    intro u hu
    simp only [upsertDoc] at hu
    by_cases h : x.url = d.url
    · rw [if_pos h] at hu
      simp only [List.map_cons, List.mem_cons] at hu ⊢
      rcases hu with hu | hu
      · exact Or.inl hu
      · exact Or.inr (Or.inr hu)
    · rw [if_neg h] at hu
      simp only [List.map_cons, List.mem_cons] at hu ⊢
      rcases hu with hu | hu
      · exact Or.inr (Or.inl hu)
      · rcases ih u hu with h2 | h2
        · exact Or.inl h2
        · exact Or.inr (Or.inr h2)

/-- Upsert preserves distinctness of the URL keys. -/
theorem upsertDoc_urls_nodup (acc : List DocEntry) (d : DocEntry)
    (h : (acc.map DocEntry.url).Nodup) :
    ((upsertDoc acc d).map DocEntry.url).Nodup := by
  induction acc with
  | nil => simp [upsertDoc]
  | cons x xs ih =>
    simp only [List.map_cons, List.nodup_cons] at h
    simp only [upsertDoc]
    by_cases hx : x.url = d.url
    · rw [if_pos hx]
      simp only [List.map_cons, List.nodup_cons]
      exact ⟨hx ▸ h.1, h.2⟩
    · rw [if_neg hx]
      simp only [List.map_cons, List.nodup_cons]
      refine ⟨?_, ih h.2⟩
      intro hmem
      rcases upsertDoc_urls_subset xs d x.url hmem with h2 | h2
      · exact hx h2
      · exact h.1 h2

/-- Looking up the just-upserted key finds the new entry. -/
theorem find_upsert_self (acc : List DocEntry) (d : DocEntry) :
    (upsertDoc acc d).find? (fun e => e.url == d.url) = some d := by
  induction acc with
  | nil => simp [upsertDoc, List.find?]
  | cons x xs ih =>
    simp only [upsertDoc]
    by_cases hx : x.url = d.url
    · rw [if_pos hx]
      simp [List.find?]
    · rw [if_neg hx]
      rw [List.find?_cons_of_neg _ (by simpa using hx)]
      exact ih

/-- Looking up any other key is unaffected by an upsert. -/
theorem find_upsert_other (acc : List DocEntry) (d : DocEntry) (u : String)
    (h : u ≠ d.url) :
    (upsertDoc acc d).find? (fun e => e.url == u) = acc.find? (fun e => e.url == u) := by
  induction acc with
  | nil =>
    simp only [upsertDoc]
    rw [List.find?_cons_of_neg _ (by simpa using Ne.symm h)]
  | cons x xs ih =>
    simp only [upsertDoc]
    by_cases hx : x.url = d.url
    · rw [if_pos hx]
      rw [List.find?_cons_of_neg _ (by simpa using Ne.symm h),
          List.find?_cons_of_neg _ (by rw [hx]; simpa using Ne.symm h)]
    · rw [if_neg hx]
      by_cases hxu : x.url = u
      · rw [List.find?_cons_of_pos _ (by simpa using hxu),
            List.find?_cons_of_pos _ (by simpa using hxu)]
      · rw [List.find?_cons_of_neg _ (by simpa using hxu),
            List.find?_cons_of_neg _ (by simpa using hxu)]
        exact ih

/-- Folding upserts realises last-occurrence-wins lookup: the dict built
from the document list answers each URL with the last document carrying
it, falling back to the accumulator. -/
theorem dedup_find (docs : List DocEntry) (acc : List DocEntry) (u : String) :
    (docs.foldl upsertDoc acc).find? (fun e => e.url == u) =
      match docs.reverse.find? (fun e => e.url == u) with
      | some e => some e
      | none => acc.find? (fun e => e.url == u) := by
  induction docs generalizing acc with
  | nil => simp
  | cons d ds ih =>
    simp only [List.foldl_cons, List.reverse_cons]
    rw [ih (upsertDoc acc d), List.find?_append]
    rcases hfind : ds.reverse.find? (fun e => e.url == u) with _ | e
    · simp only [hfind, Option.none_or]
      by_cases hu : u = d.url
      · subst hu
        rw [find_upsert_self]
        simp [List.find?]
      · rw [find_upsert_other acc d u hu]
        rw [List.find?_cons_of_neg _ (by simpa using Ne.symm hu)]
        rfl
    · simp [hfind]

/-- Distinct URL keys survive the whole fold. -/
theorem dedup_documents_urls_nodup (docs : List DocEntry) :
    ((dedup_documents docs).map DocEntry.url).Nodup := by
  unfold dedup_documents
  have h : ∀ acc : List DocEntry, (acc.map DocEntry.url).Nodup →
      ((docs.foldl upsertDoc acc).map DocEntry.url).Nodup := by
    induction docs with
    | nil => exact fun acc h => h
    | cons d ds ih =>
      intro acc hacc
      exact ih (upsertDoc acc d) (upsertDoc_urls_nodup acc d hacc)
  exact h [] (by simp)

/-- In a list with distinct URLs, lookup by a member's URL returns it. -/
theorem find_of_mem_nodup (l : List DocEntry) (d : DocEntry)
    (h : (l.map DocEntry.url).Nodup) (hd : d ∈ l) :
    l.find? (fun e => e.url == d.url) = some d := by
  induction l with
  | nil => simp at hd
  | cons x xs ih =>
    simp only [List.map_cons, List.nodup_cons] at h
    rcases List.mem_cons.mp hd with hd | hd
    · subst hd
      rw [List.find?_cons_of_pos _ (by simp)]
    · have hne : x.url ≠ d.url := by
        intro he
        exact h.1 (he ▸ List.mem_map_of_mem DocEntry.url hd)
      rw [List.find?_cons_of_neg _ (by simpa using hne)]
      exact ih h.2 hd

/-- C9 (amended): extract_documents deduplicates by absolute URL — its
output has pairwise-distinct URLs, each output entry is the LAST
discovered document with its URL, and every discovered document URL is
represented (b.py line 115).  The webpage resource extractor of
get_webpage_content performs no such deduplication (its seen_hashes set
is never consulted), so its candidate list can repeat an absolute URL. -/
theorem extract_documents_dedup (baseUrl : String) (links : List (String × String)) :
    ((extract_documents baseUrl links).map DocEntry.url).Nodup ∧
    (∀ d ∈ extract_documents baseUrl links,
      (links.filterMap (mkDoc baseUrl)).reverse.find? (fun e => e.url == d.url) = some d) ∧
    (∀ c ∈ links.filterMap (mkDoc baseUrl),
      ∃ d ∈ extract_documents baseUrl links, d.url = c.url) := by
  refine ⟨dedup_documents_urls_nodup _, ?_, ?_⟩
  · intro d hd
    have hfound : (extract_documents baseUrl links).find? (fun e => e.url == d.url) = some d :=
      find_of_mem_nodup _ d (dedup_documents_urls_nodup _) hd
    unfold extract_documents dedup_documents at hfound
    rw [dedup_find] at hfound
    rcases hfind : (links.filterMap (mkDoc baseUrl)).reverse.find?
        (fun e => e.url == d.url) with _ | e
    · rw [hfind] at hfound
      simp at hfound
    · rw [hfind] at hfound
      simp only at hfound
      rw [← hfound]
      exact hfind
  · intro c hc
    rcases hfind : (links.filterMap (mkDoc baseUrl)).reverse.find?
        (fun e => e.url == c.url) with _ | e
    · exfalso
      have hsome : ((links.filterMap (mkDoc baseUrl)).reverse.find?
          (fun e => e.url == c.url)).isSome := by
        rw [List.find?_isSome]
        exact ⟨c, List.mem_reverse.mpr hc, by simp⟩
      rw [hfind] at hsome
      simp at hsome
    · have heurl : e.url = c.url := by
        have := List.find?_some hfind
        simpa using this
      have hmem : e ∈ extract_documents baseUrl links := by
        have hfound : (extract_documents baseUrl links).find?
            (fun q => q.url == c.url) = some e := by
          unfold extract_documents dedup_documents
          rw [dedup_find, hfind]
        exact List.mem_of_find?_eq_some hfound
      exact ⟨e, hmem, heurl⟩

theorem extract_documents_dedup_witness :
    (([("a.pdf", "x"), ("a.pdf", "y")].filterMap (mkDoc "http://s/")).reverse.find?
      (fun e => e.url == (⟨"y", "http://s/a.pdf"⟩ : DocEntry).url)) =
    some ⟨"y", "http://s/a.pdf"⟩ :=
  (extract_documents_dedup "http://s/" [("a.pdf", "x"), ("a.pdf", "y")]).2.1
    ⟨"y", "http://s/a.pdf"⟩ (by decide)

end B

namespace D5

/-- C9 counterexample: a fetched page whose parsed tags contain the same
PDF anchor twice yields TWO identical resource candidates from
get_webpage_content — the claim that resource extraction produces at
most one entry per absolute URL fails on this extractor (d5.py lines
196-216; the seen_hashes set of line 197 is never used). -/
theorem webpage_extraction_duplicates :
    (get_webpage_content "http://s/"
        (.ok "P" [⟨"a", some "doc.pdf", none⟩, ⟨"a", some "doc.pdf", none⟩])).2 =
      [⟨"http://s/doc.pdf", "pdf", md5Hex "http://s/doc.pdf"⟩,
       ⟨"http://s/doc.pdf", "pdf", md5Hex "http://s/doc.pdf"⟩] ∧
    ¬ ((get_webpage_content "http://s/"
        (.ok "P" [⟨"a", some "doc.pdf", none⟩, ⟨"a", some "doc.pdf", none⟩])).2.map
          Resource.url).Nodup := by
  constructor
  · decide
  · decide

end D5

namespace D5dl

/-- C10: for every input byte sequence and every positive chunk size,
split_file produces parts whose concatenation in the returned order is
exactly the original bytes, every part except possibly the last has
exactly the chunk size, and no empty part is ever returned
(D5dl.py lines 79-106). -/
theorem split_file_roundtrip (chunkSize : Nat) (data : List Nat) (hc : 0 < chunkSize) :
    (split_file chunkSize data).flatten = data ∧
    (∀ p ∈ (split_file chunkSize data).dropLast, p.length = chunkSize) ∧
    (∀ p ∈ split_file chunkSize data, p ≠ []) :=
  ⟨split_file_join chunkSize data hc, split_file_fixed_sizes chunkSize data,
   split_file_parts_nonempty chunkSize data⟩

theorem split_file_roundtrip_witness :
    (split_file 2 [1, 2, 3]).flatten = [1, 2, 3] :=
  (split_file_roundtrip 2 [1, 2, 3] (by decide)).1

/-- A three-byte file fits inside the first default-sized chunk. -/
theorem split_file_default_small :
    split_file CHUNK_DEFAULT [1, 2, 3] = [[1, 2, 3]] := by
  rw [split_file.eq_def]
  simp only [readChunks_eq]
  rw [List.take_of_length_le (by norm_num [CHUNK_DEFAULT])]
  rw [dif_neg (by simp)]
  rw [if_pos (by norm_num [CHUNK_DEFAULT])]

/-- C8 counterexample: in the large-file upload loop, a part whose send
raises is NOT removed — the removal (D5dl.py line 213) runs only after
the send returns, and an exception jumps to the handler's except clause,
leaving the failing part, all later parts, and the original file on
disk.  The claim that each part file is removed after its handoff
"regardless of whether that send succeeds or fails" is false on the
code. -/
theorem failed_part_send_not_removed :
    ytdl_send_flow (fun _ => false) "f" (3 * 1024 ^ 3) [1, 2, 3] =
      [UpEvent.attempt (partName "f" 0)] ∧
    UpEvent.removedPart (partName "f" 0) ∉
      ytdl_send_flow (fun _ => false) "f" (3 * 1024 ^ 3) [1, 2, 3] ∧
    UpEvent.removedOriginal ∉
      ytdl_send_flow (fun _ => false) "f" (3 * 1024 ^ 3) [1, 2, 3] := by
  have hflow : ytdl_send_flow (fun _ => false) "f" (3 * 1024 ^ 3) [1, 2, 3] =
      [UpEvent.attempt (partName "f" 0)] := by
    unfold ytdl_send_flow
    rw [if_pos (by norm_num)]
    rw [split_file_default_small]
    rfl
  refine ⟨hflow, ?_, ?_⟩
  · rw [hflow]; decide
  · rw [hflow]; decide

/-- C8 (amended): for a downloaded file whose reported size exceeds
2 GiB, the file is split into sequentially numbered fixed-size parts
(every part except possibly the last has exactly the default chunk
size); when every part send succeeds the parts are sent in ascending
part order, each part file is removed immediately after ITS SEND
RETURNS SUCCESSFULLY, and the original file is removed after all parts
— but a failing send aborts the loop without removing the failing part
or the original (D5dl.py lines 201-215). -/
theorem parts_sent_in_order (sendOk : String → Bool) (filePath : String)
    (fileSize : Nat) (data : List Nat)
    (hbig : 2 * 1024 ^ 3 < fileSize)
    (h : ∀ p ∈ partNames filePath (split_file CHUNK_DEFAULT data).length, sendOk p = true) :
    ytdl_send_flow sendOk filePath fileSize data =
      (partNames filePath (split_file CHUNK_DEFAULT data).length).flatMap
        (fun p => [UpEvent.attempt p, UpEvent.removedPart p]) ++ [UpEvent.removedOriginal] ∧
    (∀ p ∈ (split_file CHUNK_DEFAULT data).dropLast, p.length = CHUNK_DEFAULT) := by
  constructor
  · unfold ytdl_send_flow
    rw [if_pos hbig]
    exact sendParts_all_ok sendOk _ h
  · exact split_file_fixed_sizes _ _

theorem parts_sent_in_order_witness :
    ytdl_send_flow (fun _ => true) "f" (3 * 1024 ^ 3) [1, 2, 3] =
      (partNames "f" (split_file CHUNK_DEFAULT [1, 2, 3]).length).flatMap
        (fun p => [UpEvent.attempt p, UpEvent.removedPart p]) ++ [UpEvent.removedOriginal] :=
  (parts_sent_in_order (fun _ => true) "f" (3 * 1024 ^ 3) [1, 2, 3] (by norm_num)
    (fun p _ => rfl)).1

end D5dl
